import Mathlib

/-!
Verification of `easystory` (`src/app.py`): a Flask application that
generates a story with quiz, learning objectives, vocabulary and summary
through an LLM.  We shallowly embed the pure parts of `app.py` — the
story-output cleaner, the quiz-response scanner, the vocabulary-response
scanner and the request handler's control flow — over `List Char` and
`String`, and prove the specification's claims about them.

Python string primitives are modelled explicitly:
* `str.strip()` → `stripChars` (drop ASCII whitespace from both ends);
* `str.split('\n')` → `splitNl`;
* `str.startswith(p)` → `List.isPrefixOf`;
* slicing `line[n:]` → `List.drop n`;
* `'\n\n'.join(...)` → `joinBlank`.
-/

namespace EasyStory

/-- ASCII whitespace characters removed by Python's `str.strip()`. -/
def isPyWs (c : Char) : Bool :=
  c == ' ' || c == '\t' || c == '\n' || c == '\r' || c == '\x0b' || c == '\x0c'

/-- Python `str.strip()` on a character list: drop whitespace from both ends. -/
def stripChars (l : List Char) : List Char :=
  ((l.dropWhile isPyWs).reverse.dropWhile isPyWs).reverse

/-- Python `str.split('\n')`: split on every newline; `"".split('\n') = [""]`. -/
def splitNl : List Char → List (List Char)
  | [] => [[]]
  | c :: cs =>
    if c = '\n' then [] :: splitNl cs
    else
      match splitNl cs with
      | [] => [[c]]
      | p :: ps => (c :: p) :: ps

/-- The lines fed to the scanning loops of `app.py`: `response.split('\n')`. -/
def linesOf (s : String) : List (List Char) :=
  splitNl s.data

/-- Strip a character list and pack it as a `String` (Python `line[n:].strip()`). -/
def stripStr (l : List Char) : String :=
  String.mk (stripChars l)

/-- A quiz record built by `parse_quiz_response` (`app.py` lines 81-86):
`question`, `options`, and optional `correct_answer` / `explanation`
(`None` in Python ↦ `none`). -/
structure QuizQuestion where
  question : String
  options : List String
  correct_answer : Option String
  explanation : Option String
deriving Repr, DecidableEq

/-- One iteration state of `parse_quiz_response`'s loop: the list of lines still
to process and the optional open record.  Each line is stripped first
(`line = line.strip()`), blank lines are skipped, `Q:` flushes the open record
and opens a new one, `A:`/`B:`/`C:`/`D:` append `line[2:].strip()` to the open
record's options, `Correct:` stores `line[8:].strip()` and `Explanation:`
stores `line[11:].strip()` (the source's slice indices, kept verbatim); lines
matching no marker are ignored.  After the last line the open record, if any,
is flushed (`app.py` lines 97-98). -/
def quizLoop : Option QuizQuestion → List (List Char) → List QuizQuestion
  | cur, [] =>
    match cur with
    | some q => [q]
    | none => []
  | cur, l :: ls =>
    let line := stripChars l
    if line = [] then quizLoop cur ls
    else if "Q:".data.isPrefixOf line then
      let newQ : QuizQuestion :=
        ⟨stripStr (line.drop 2), [], none, none⟩
      match cur with
      | some q => q :: quizLoop (some newQ) ls
      | none => quizLoop (some newQ) ls
    else if "A:".data.isPrefixOf line || "B:".data.isPrefixOf line ||
        "C:".data.isPrefixOf line || "D:".data.isPrefixOf line then
      match cur with
      | some q =>
          quizLoop (some { q with options := q.options ++ [stripStr (line.drop 2)] }) ls
      | none => quizLoop none ls
    else if "Correct:".data.isPrefixOf line then
      match cur with
      | some q => quizLoop (some { q with correct_answer := some (stripStr (line.drop 8)) }) ls
      | none => quizLoop none ls
    else if "Explanation:".data.isPrefixOf line then
      match cur with
      | some q => quizLoop (some { q with explanation := some (stripStr (line.drop 11)) }) ls
      | none => quizLoop none ls
    else quizLoop cur ls

/-- `parse_quiz_response` (`app.py` lines 68-100) on a pre-split line list. -/
def parse_quiz_lines (ls : List (List Char)) : List QuizQuestion :=
  quizLoop none ls

/-- `parse_quiz_response` (`app.py` lines 68-100). -/
def parse_quiz_response (response : String) : List QuizQuestion :=
  parse_quiz_lines (linesOf response)

/-- A vocabulary record built by the scanning loop of `generate_vocabulary`
(`app.py` lines 205-230).  In Python the record is a dict whose keys are added
independently, so every field is optional here; `{}` is modelled as `none` at
the loop-state level and a missing key as a `none` field. -/
structure VocabEntry where
  word : Option String
  definition : Option String
  «example» : Option String
  part_of_speech : Option String
deriving Repr, DecidableEq

/-- The empty Python dict `{}` as a record with every key absent. -/
def VocabEntry.empty : VocabEntry := ⟨none, none, none, none⟩

/-- One iteration state of the vocabulary scanning loop (`app.py` lines
208-225): blank lines flush the open record, `Word:` flushes it and opens a
fresh one holding `line[5:].strip()`, and `Definition:` / `Example:` /
`Part of Speech:` assign `line[11:].strip()` / `line[8:].strip()` /
`line[14:].strip()` into the current dict — creating it from `{}` when no
record is open, exactly as Python's unguarded `current_word[...] = ...` does.
The slice indices are the source's, kept verbatim.  After the last line the
open record, if any, is flushed (`app.py` lines 227-228). -/
def vocabLoop : Option VocabEntry → List (List Char) → List VocabEntry
  | cur, [] =>
    match cur with
    | some w => [w]
    | none => []
  | cur, l :: ls =>
    let line := stripChars l
    if line = [] then
      match cur with
      | some w => w :: vocabLoop none ls
      | none => vocabLoop none ls
    else if "Word:".data.isPrefixOf line then
      let newW : VocabEntry := ⟨some (stripStr (line.drop 5)), none, none, none⟩
      match cur with
      | some w => w :: vocabLoop (some newW) ls
      | none => vocabLoop (some newW) ls
    else if "Definition:".data.isPrefixOf line then
      let base := cur.getD VocabEntry.empty
      vocabLoop (some { base with definition := some (stripStr (line.drop 11)) }) ls
    else if "Example:".data.isPrefixOf line then
      let base := cur.getD VocabEntry.empty
      vocabLoop (some { base with «example» := some (stripStr (line.drop 8)) }) ls
    else if "Part of Speech:".data.isPrefixOf line then
      let base := cur.getD VocabEntry.empty
      vocabLoop (some { base with part_of_speech := some (stripStr (line.drop 14)) }) ls
    else vocabLoop cur ls

/-- The response-parsing part of `generate_vocabulary` (`app.py` lines
205-230) on a pre-split line list. -/
def parse_vocab_lines (ls : List (List Char)) : List VocabEntry :=
  vocabLoop none ls

/-- The response-parsing part of `generate_vocabulary` (`app.py` lines
205-230): what the function returns once the raw LLM response text is fixed. -/
def parse_vocabulary_response (response : String) : List VocabEntry :=
  parse_vocab_lines (linesOf response)

/-- The condition of `app.py` lines 33-36 on one (already stripped) line:
length between 1 and 99, last character not in `.!?,:;`, does not start with
`Here`, lower-cased does not start with `once`. -/
def titleOk (l : List Char) : Bool :=
  decide (0 < l.length) && decide (l.length < 100) &&
    !(match l.getLast? with
      | some c => c == '.' || c == '!' || c == '?' || c == ',' || c == ':' || c == ';'
      | none => false) &&
    !("Here".data.isPrefixOf l) &&
    !("once".data.isPrefixOf (l.map Char.toLower))

/-- The `for i, line in enumerate(lines)` scan of `clean_story_output`: return
the suffix of the line list from the first line satisfying `titleOk`, if any. -/
def firstGood : List (List Char) → Option (List (List Char))
  | [] => none
  | l :: ls => if titleOk l then some (l :: ls) else firstGood ls

/-- Python `'\n\n'.join(...)` over character-list lines: the pieces
separated by a blank line (two newlines). -/
def joinBlankChars : List (List Char) → List Char
  | [] => []
  | [l] => l
  | l :: l₂ :: ls => l ++ '\n' :: '\n' :: joinBlankChars (l₂ :: ls)

/-- Python `'\n\n'.join(...)`, packed as a `String`. -/
def joinBlank (ls : List (List Char)) : String :=
  String.mk (joinBlankChars ls)

/-- The list `[line.strip() for line in text.split('\n') if line.strip()]`
(`app.py` line 30): stripped lines with the blank ones removed. -/
def procLines (text : String) : List (List Char) :=
  ((splitNl text.data).map stripChars).filter (fun l => l ≠ [])

/-- `clean_story_output` (`app.py` lines 28-39).  The `language` parameter is
accepted and ignored exactly as in the source. -/
def clean_story_output (text : String) (language : String) : String :=
  let _ := language
  let lines := procLines text
  match firstGood lines with
  | some suffix => joinBlank suffix
  | none => joinBlank lines

/-- Python truthiness of `data.get(key)`: false for a missing key (`None`)
and for the empty string. -/
def truthyS : Option String → Bool
  | none => false
  | some s => s ≠ ""

/-- Python `data.get(k)` on a parsed JSON object, the object modelled as an
association list from keys to string values: the first value bound to `k`,
or `none` for an absent key.  A JSON `null` value is modelled as an absent
key — `data.get` reads both back as `None` — and non-string values (such as
`word_count`, which no claim touches) are out of scope. -/
def dictGet (d : List (String × String)) (k : String) : Option String :=
  (d.find? fun p => p.1 == k).map Prod.snd

/-- The outcome of each of the five `get_llm_response` calls made by the
handler, in call order (story, quiz, learning objectives, vocabulary,
summary): `Except.error e` models the call raising an exception whose
`str(e)` is `e`, `Except.ok t` models it returning the text `t`. -/
structure StageResponses where
  story : Except String String
  quiz : Except String String
  objectives : Except String String
  vocab : Except String String
  summary : Except String String
deriving Repr

/-- The JSON body the handler answers with: either `{"error": msg}` or the
five-artifact success object of `app.py` lines 164-170. -/
inductive ResponseBody where
  | errorBody (msg : String)
  | storyBody (content : String) (quiz : List QuizQuestion)
      (learning_objectives : List String) (vocabulary : List VocabEntry)
      (summary : String)
deriving Repr, DecidableEq

/-- The learning-objectives post-processing of `app.py` line 188:
`[obj.strip() for obj in response.split('\n') if obj.strip()]`. -/
def parse_objectives (response : String) : List String :=
  (((splitNl response.data).map stripChars).filter (fun l => l ≠ [])).map String.mk

/-- The `/generate-story` handler `generate_story` (`app.py` lines 126-174).
`data` is the result of `request.get_json()`: `none` when the body is
missing or not parseable as JSON, `some` of the parsed object otherwise.
The guard `if not data:` at line 130 is Python falsiness, which holds both
for `None` and for the parsed empty object `{}`, so the empty dict is also
answered 400 `{"error": "No data provided"}`; only a non-empty dict reaches
the required-fields check at line 143.  `llm` fixes the outcome of each
LLM call; the second component of the result counts how many LLM calls were
made.  A failing stage is caught by the `except` clause at line 172 and
answered with status 500 and `{"error": str(e)}`; the earlier stages' results
are discarded. -/
def generate_story (data : Option (List (String × String))) (llm : StageResponses) :
    (Nat × ResponseBody) × Nat :=
  match data with
  | none => ((400, .errorBody "No data provided"), 0)
  | some d =>
    if d = [] then ((400, .errorBody "No data provided"), 0)
    else if !(truthyS (dictGet d "academic_grade") && truthyS (dictGet d "subject")) then
      ((400, .errorBody "Missing required fields"), 0)
    else
      match llm.story with
      | .error e => ((500, .errorBody e), 1)
      | .ok storyRaw =>
        let story := clean_story_output storyRaw ((dictGet d "language").getD "English")
        match llm.quiz with
        | .error e => ((500, .errorBody e), 2)
        | .ok quizRaw =>
          let quiz := parse_quiz_response quizRaw
          match llm.objectives with
          | .error e => ((500, .errorBody e), 3)
          | .ok objRaw =>
            let objs := parse_objectives objRaw
            match llm.vocab with
            | .error e => ((500, .errorBody e), 4)
            | .ok vocabRaw =>
              let vocab := parse_vocabulary_response vocabRaw
              match llm.summary with
              | .error e => ((500, .errorBody e), 5)
              | .ok summaryTxt =>
                ((200, .storyBody story quiz objs vocab summaryTxt), 5)

/-- The spec's wording of the title condition, for comparison with the code's
`titleOk`: length > 0, length < 100, not ending in one of `. ! ? , : ;`, not
beginning with `Here`, not beginning with `once` case-insensitively. -/
def specTitleLine (l : List Char) : Bool :=
  decide (l ≠ []) && decide (l.length < 100) &&
    decide (∀ c ∈ l.getLast?, c ∉ ['.', '!', '?', ',', ':', ';']) &&
    decide (l.take 4 ≠ "Here".data) &&
    decide ((l.map Char.toLower).take 4 ≠ "once".data)

/-- The spec's wording of the story cleaner: split into non-empty trimmed
lines, and if any line satisfies the title condition, return the lines from
the first such line onwards rejoined with blank-line separators, otherwise
all lines so rejoined. -/
def clean_story_spec (text : String) : String :=
  let lines := ((splitNl text.data).map stripChars).filter (fun l => l ≠ [])
  if lines.any specTitleLine then
    joinBlank (lines.dropWhile (fun l => !specTitleLine l))
  else
    joinBlank lines

/-- The state of `parse_quiz_response`'s loop after all lines are processed:
the `current_question` variable at line 97 of `app.py`, before the final
flush.  Mirrors `quizLoop` without emitting. -/
def quizFinal : Option QuizQuestion → List (List Char) → Option QuizQuestion
  | cur, [] => cur
  | cur, l :: ls =>
    let line := stripChars l
    if line = [] then quizFinal cur ls
    else if "Q:".data.isPrefixOf line then
      quizFinal (some ⟨stripStr (line.drop 2), [], none, none⟩) ls
    else if "A:".data.isPrefixOf line || "B:".data.isPrefixOf line ||
        "C:".data.isPrefixOf line || "D:".data.isPrefixOf line then
      match cur with
      | some q => quizFinal (some { q with options := q.options ++ [stripStr (line.drop 2)] }) ls
      | none => quizFinal none ls
    else if "Correct:".data.isPrefixOf line then
      match cur with
      | some q => quizFinal (some { q with correct_answer := some (stripStr (line.drop 8)) }) ls
      | none => quizFinal none ls
    else if "Explanation:".data.isPrefixOf line then
      match cur with
      | some q => quizFinal (some { q with explanation := some (stripStr (line.drop 11)) }) ls
      | none => quizFinal none ls
    else quizFinal cur ls

/-- The state of the vocabulary loop after all lines are processed: the
`current_word` variable at line 227 of `app.py`, before the final flush.
Mirrors `vocabLoop` without emitting. -/
def vocabFinal : Option VocabEntry → List (List Char) → Option VocabEntry
  | cur, [] => cur
  | cur, l :: ls =>
    let line := stripChars l
    if line = [] then vocabFinal none ls
    else if "Word:".data.isPrefixOf line then
      vocabFinal (some ⟨some (stripStr (line.drop 5)), none, none, none⟩) ls
    else if "Definition:".data.isPrefixOf line then
      vocabFinal (some { cur.getD VocabEntry.empty with
        definition := some (stripStr (line.drop 11)) }) ls
    else if "Example:".data.isPrefixOf line then
      vocabFinal (some { cur.getD VocabEntry.empty with
        «example» := some (stripStr (line.drop 8)) }) ls
    else if "Part of Speech:".data.isPrefixOf line then
      vocabFinal (some { cur.getD VocabEntry.empty with
        part_of_speech := some (stripStr (line.drop 14)) }) ls
    else vocabFinal cur ls

/-- The number of lines whose stripped form starts with `Q:`. -/
def countQ (ls : List (List Char)) : Nat :=
  (ls.filter (fun l => "Q:".data.isPrefixOf (stripChars l))).length

/-- Condition on a quiz reply's lines: between any `Q:` line and the next
(and before the first `Q:` line once a record is open — `st` carries the
option count of the open block, `none` before the first `Q:`), at most four
`A:`/`B:`/`C:`/`D:` lines occur. -/
def blocksLE4 : Option Nat → List (List Char) → Bool
  | _, [] => true
  | st, l :: ls =>
    let line := stripChars l
    if line = [] then blocksLE4 st ls
    else if "Q:".data.isPrefixOf line then blocksLE4 (some 0) ls
    else if "A:".data.isPrefixOf line || "B:".data.isPrefixOf line ||
        "C:".data.isPrefixOf line || "D:".data.isPrefixOf line then
      match st with
      | some n => decide (n + 1 ≤ 4) && blocksLE4 (some (n + 1)) ls
      | none => blocksLE4 none ls
    else blocksLE4 st ls

/-- Condition on a vocabulary reply's lines: every `Definition:`, `Example:`
or `Part of Speech:` line is preceded by a `Word:` line more recently than
any blank line (the flag records whether such a `Word:` line is active). -/
def wordLedOk : Bool → List (List Char) → Bool
  | _, [] => true
  | b, l :: ls =>
    let line := stripChars l
    if line = [] then wordLedOk false ls
    else if "Word:".data.isPrefixOf line then wordLedOk true ls
    else if "Definition:".data.isPrefixOf line then b && wordLedOk true ls
    else if "Example:".data.isPrefixOf line then b && wordLedOk true ls
    else if "Part of Speech:".data.isPrefixOf line then b && wordLedOk true ls
    else wordLedOk b ls

/-- Relation between the option counter tracked by `blocksLE4` and the quiz
loop's open record: equal counts and the invariant bound. -/
def stMatch : Option Nat → Option QuizQuestion → Prop
  | none, none => True
  | some n, some q => q.options.length = n ∧ n ≤ 4
  | _, _ => False

/-- Relation between the flag tracked by `wordLedOk` and the vocabulary
loop's open record: the flag is set exactly when a record opened by a
`Word:` line (hence with a word field) is open. -/
def vocabMatch : Bool → Option VocabEntry → Prop
  | true, some w => w.word.isSome = true
  | false, none => True
  | _, _ => False

/-! ### Helper lemmas on the string primitives -/

theorem dropWhile_eq_self {α : Type} (p : α → Bool) (l : List α)
    (h : ∀ c ∈ l.head?, p c = false) : l.dropWhile p = l := by
  cases l with
  | nil => rfl
  | cons a l => simp [List.dropWhile_cons, h a rfl]

theorem head?_dropWhile {α : Type} (p : α → Bool) (l : List α) :
    ∀ c ∈ (l.dropWhile p).head?, p c = false := by
  intro c hc
  have h := List.head?_dropWhile_not p l
  rw [Option.mem_def] at hc
  rw [hc] at h
  exact h

theorem head?_stripChars (l : List Char) :
    ∀ c ∈ (stripChars l).head?, isPyWs c = false := by
  intro c hc
  unfold stripChars at hc
  rw [List.head?_reverse] at hc
  obtain ⟨t, ht⟩ := List.dropWhile_suffix (l := (l.dropWhile isPyWs).reverse) isPyWs
  by_cases hbn : (l.dropWhile isPyWs).reverse.dropWhile isPyWs = []
  · rw [hbn] at hc
    simp at hc
  · have hgl : ((l.dropWhile isPyWs).reverse.dropWhile isPyWs).getLast? =
        (l.dropWhile isPyWs).reverse.getLast? := by
      conv_rhs => rw [← ht]
      exact (List.getLast?_append_of_ne_nil t hbn).symm
    rw [hgl] at hc
    rw [List.getLast?_reverse] at hc
    exact head?_dropWhile isPyWs l c hc

theorem getLast?_stripChars (l : List Char) :
    ∀ c ∈ (stripChars l).getLast?, isPyWs c = false := by
  intro c hc
  unfold stripChars at hc
  rw [List.getLast?_reverse] at hc
  exact head?_dropWhile isPyWs _ c hc

theorem stripChars_eq_self (l : List Char)
    (h1 : ∀ c ∈ l.head?, isPyWs c = false)
    (h2 : ∀ c ∈ l.getLast?, isPyWs c = false) : stripChars l = l := by
  unfold stripChars
  rw [dropWhile_eq_self _ _ h1]
  rw [dropWhile_eq_self _ _ (by rw [List.head?_reverse]; exact h2)]
  exact List.reverse_reverse l

theorem stripChars_idem (l : List Char) :
    stripChars (stripChars l) = stripChars l :=
  stripChars_eq_self _ (head?_stripChars l) (getLast?_stripChars l)

theorem mem_of_mem_stripChars {c : Char} {l : List Char}
    (h : c ∈ stripChars l) : c ∈ l := by
  unfold stripChars at h
  rw [List.mem_reverse] at h
  have h2 := (List.dropWhile_sublist (l := (l.dropWhile isPyWs).reverse) isPyWs).subset h
  rw [List.mem_reverse] at h2
  exact (List.dropWhile_sublist isPyWs).subset h2

theorem splitNl_ne_nil (cs : List Char) : splitNl cs ≠ [] := by
  induction cs with
  | nil => simp [splitNl]
  | cons c cs ih =>
    unfold splitNl
    split
    · simp
    · split
      · simp
      · simp

theorem splitNl_cons_nl (r : List Char) : splitNl ('\n' :: r) = [] :: splitNl r := by
  simp [splitNl]

theorem splitNl_no_nl (p : List Char) (h : '\n' ∉ p) : splitNl p = [p] := by
  induction p with
  | nil => rfl
  | cons c cs ih =>
    have hc : ¬c = '\n' := fun e => h (e ▸ List.mem_cons_self c cs)
    unfold splitNl
    rw [if_neg hc, ih (fun m => h (List.mem_cons_of_mem c m))]

theorem splitNl_append (p r : List Char) (h : '\n' ∉ p) :
    splitNl (p ++ '\n' :: r) = p :: splitNl r := by
  induction p with
  | nil => simp [splitNl]
  | cons c cs ih =>
    have hc : ¬c = '\n' := fun e => h (e ▸ List.mem_cons_self c cs)
    rw [List.cons_append]
    show (if c = '\n' then [] :: splitNl (cs ++ '\n' :: r)
        else
          match splitNl (cs ++ '\n' :: r) with
          | [] => [[c]]
          | p :: ps => (c :: p) :: ps) = (c :: cs) :: splitNl r
    rw [if_neg hc, ih (fun m => h (List.mem_cons_of_mem c m))]

theorem splitNl_mem_no_nl (cs : List Char) : ∀ p ∈ splitNl cs, '\n' ∉ p := by
  induction cs with
  | nil =>
    intro p hp
    simp [splitNl] at hp
    simp [hp]
  | cons c cs ih =>
    intro p hp
    by_cases hc : c = '\n'
    · subst hc
      rw [splitNl_cons_nl] at hp
      rcases List.mem_cons.mp hp with h | h
      · simp [h]
      · exact ih p h
    · cases hsp : splitNl cs with
      | nil => exact absurd hsp (splitNl_ne_nil cs)
      | cons q qs =>
        unfold splitNl at hp
        rw [if_neg hc, hsp] at hp
        rcases List.mem_cons.mp hp with h | h
        · subst h
          intro hmem
          rcases List.mem_cons.mp hmem with h' | h'
          · exact hc h'.symm
          · exact ih q (hsp ▸ List.mem_cons_self q qs) h'
        · exact ih p (hsp ▸ List.mem_cons_of_mem q h)

/-- Rejoining stripped, non-blank, newline-free lines with blank-line
separators and re-splitting them recovers the same lines. -/
theorem proc_joinBlank (R : List (List Char))
    (h : ∀ l ∈ R, stripChars l = l ∧ l ≠ [] ∧ '\n' ∉ l) :
    ((splitNl (joinBlankChars R)).map stripChars).filter (fun l => l ≠ []) = R := by
  induction R with
  | nil => rfl
  | cons a R ih =>
    obtain ⟨hs, hne, hnl⟩ := h a (List.mem_cons_self a R)
    cases R with
    | nil =>
      show ((splitNl (joinBlankChars [a])).map stripChars).filter (fun l => l ≠ []) = [a]
      rw [show joinBlankChars [a] = a from rfl, splitNl_no_nl a hnl]
      simp [hs, hne]
    | cons b R' =>
      have hrest := fun l hl => h l (List.mem_cons_of_mem a hl)
      rw [show joinBlankChars (a :: b :: R') =
          a ++ '\n' :: '\n' :: joinBlankChars (b :: R') from rfl]
      rw [splitNl_append a _ hnl, splitNl_cons_nl]
      have h0 : stripChars ([] : List Char) = [] := rfl
      simp [hs, hne, h0]
      simpa using ih hrest

/-! ### Helper lemmas on the cleaner scan -/

theorem firstGood_eq_dropWhile (L : List (List Char)) :
    firstGood L =
      if L.any titleOk then some (L.dropWhile (fun l => !titleOk l)) else none := by
  induction L with
  | nil => rfl
  | cons l ls ih =>
    by_cases h : titleOk l
    · simp [firstGood, h, List.dropWhile_cons]
    · simp only [firstGood, List.any_cons, List.dropWhile_cons]
      simp [h, ih]

theorem firstGood_some {L s : List (List Char)} (h : firstGood L = some s) :
    (∀ x ∈ s, x ∈ L) ∧ ∃ l ls, s = l :: ls ∧ titleOk l = true := by
  induction L with
  | nil => exact absurd h (by simp [firstGood])
  | cons l ls ih =>
    by_cases hok : titleOk l
    · rw [firstGood, if_pos hok] at h
      obtain rfl : l :: ls = s := Option.some.inj h
      exact ⟨fun x hx => hx, l, ls, rfl, hok⟩
    · rw [firstGood, if_neg hok] at h
      obtain ⟨hsub, hcons⟩ := ih h
      exact ⟨fun x hx => List.mem_cons_of_mem l (hsub x hx), hcons⟩

theorem mem_procLines (t : String) :
    ∀ l ∈ procLines t, stripChars l = l ∧ l ≠ [] ∧ '\n' ∉ l := by
  intro l hl
  unfold procLines at hl
  rw [List.mem_filter] at hl
  obtain ⟨hmap, hne⟩ := hl
  rw [List.mem_map] at hmap
  obtain ⟨p, hp, rfl⟩ := hmap
  refine ⟨stripChars_idem p, by simpa using hne, ?_⟩
  intro hmem
  exact splitNl_mem_no_nl t.data p hp (mem_of_mem_stripChars hmem)

/-- The spec's wording of the title condition agrees with the code's,
line by line. -/
theorem specTitle_eq (l : List Char) : specTitleLine l = titleOk l := by
  unfold specTitleLine titleOk
  rw [Bool.eq_iff_iff]
  have hpre : ∀ p q : List Char, p.isPrefixOf q = false ↔ ¬List.take p.length q = p := by
    intro p q
    rw [← Bool.not_eq_true, List.isPrefixOf_iff_prefix, List.prefix_iff_eq_take]
    exact not_congr ⟨Eq.symm, Eq.symm⟩
  cases h : l.getLast? with
  | none =>
    have hl : l = [] := List.getLast?_eq_none_iff.mp h
    subst hl
    simp
  | some c =>
    have hne : l ≠ [] := by
      intro e
      rw [e] at h
      simp at h
    simp [h, hne, List.length_pos, hpre, not_or]
    tauto

/-! ### Claims -/

/-- C1: on the quiz reply
`"Q: What happened?\nA: X\nB: Y\nC: Z\nD: W\nCorrect: X\nExplanation: because\n"`
the parser yields exactly one record with the expected question, options and
correct answer, but its explanation is `": because"`, not the `"because"` the
claim states: `'Explanation:'` is 12 characters long while the code slices
`line[11:]`, so the colon survives into the stored value. -/
theorem c1_quiz_example_eval :
    parse_quiz_response
        "Q: What happened?\nA: X\nB: Y\nC: Z\nD: W\nCorrect: X\nExplanation: because\n" =
      [{ question := "What happened?", options := ["X", "Y", "Z", "W"],
         correct_answer := some "X", explanation := some ": because" }] := by
  decide

/-- C2: the values stored for `Q:`, `A:`–`D:`, `Correct:`, `Word:`,
`Definition:` and `Example:` lines are the text after the colon with
surrounding whitespace stripped, but the values stored for `Explanation:`
and `Part of Speech:` lines retain the marker's colon (`": why"`,
`": noun"`): the code slices `line[11:]` and `line[14:]` although those
markers are 12 and 15 characters long. -/
theorem c2_marker_values_eval :
    parse_quiz_response "Q: q\nA: a1\nB: b1\nC: c1\nD: d1\nCorrect: x\nExplanation: why" =
      [{ question := "q", options := ["a1", "b1", "c1", "d1"],
         correct_answer := some "x", explanation := some ": why" }] ∧
    parse_vocabulary_response
        "Word: cat\nDefinition: animal\nExample: a cat\nPart of Speech: noun" =
      [{ word := some "cat", definition := some "animal",
         «example» := some "a cat", part_of_speech := some ": noun" }] := by
  constructor
  · decide
  · decide

/-- C3: the story cleaner splits its input into non-empty trimmed lines,
finds the first line of length in `(0, 100)` not ending in `.!?,:;`, not
beginning with `Here` and not beginning (case-insensitively) with `once`,
and returns that line and all following lines joined with blank-line
separators — all lines so rejoined when none qualifies; and on the spec's
example it returns `"The Lonely Comet\n\nOnce there was a comet..."`. -/
theorem c3_clean_story_matches_spec :
    (∀ text language, clean_story_output text language = clean_story_spec text) ∧
    clean_story_output "Here is your story\nThe Lonely Comet\nOnce there was a comet..."
        "English" =
      "The Lonely Comet\n\nOnce there was a comet..." := by
  constructor
  · intro t lang
    simp only [clean_story_output, clean_story_spec, procLines]
    rw [firstGood_eq_dropWhile, funext specTitle_eq]
    cases hb : (((splitNl t.data).map stripChars).filter (fun l => l ≠ [])).any titleOk <;>
      simp [hb]
  · decide

/-- C4: the story cleaner is idempotent — applying it to its own output
returns that output unchanged, because the output's lines are already
stripped, non-blank and newline-free, and its first line already satisfies
the title condition whenever any line of the original input did. -/
theorem c4_clean_story_idempotent (text language : String) :
    clean_story_output (clean_story_output text language) language =
      clean_story_output text language := by
  simp only [clean_story_output]
  cases h : firstGood (procLines text) with
  | some s =>
    obtain ⟨hsub, l, ls, rfl, hok⟩ := firstGood_some h
    have hprops : ∀ x ∈ l :: ls, stripChars x = x ∧ x ≠ [] ∧ '\n' ∉ x :=
      fun x hx => mem_procLines text x (hsub x hx)
    have hproc : procLines (joinBlank (l :: ls)) = l :: ls := proc_joinBlank _ hprops
    rw [hproc]
    rw [show firstGood (l :: ls) = some (l :: ls) from by simp [firstGood, hok]]
  | none =>
    have hproc : procLines (joinBlank (procLines text)) = procLines text :=
      proc_joinBlank _ (mem_procLines text)
    rw [hproc, h]

/-- C5 counterexample: the body that parses to the empty JSON object `{}`
lacks both `academic_grade` and `subject`, yet the handler answers 400
`{"error": "No data provided"}` — not the claimed `"Missing required
fields"` — because `if not data:` at `app.py` line 130 treats the empty
dict as falsy. -/
theorem c5_empty_body_counterexample :
    dictGet [] "academic_grade" = none ∧
    dictGet [] "subject" = none ∧
    generate_story (some [])
        (StageResponses.mk (.ok "") (.ok "") (.ok "") (.ok "") (.ok "")) =
      ((400, ResponseBody.errorBody "No data provided"), 0) :=
  ⟨rfl, rfl, rfl⟩

/-- C5 (amended): a missing or unparseable body, and likewise a body parsing
to the empty object (Python falsiness of `{}`), is answered 400
`{"error": "No data provided"}`; a non-empty parsed body whose
`academic_grade` or `subject` is missing (or empty-string, Python
truthiness) is answered 400 `{"error": "Missing required fields"}`; in all
these cases zero LLM calls are made. -/
theorem c5_validation_before_llm :
    (∀ llm : StageResponses,
      generate_story none llm = ((400, ResponseBody.errorBody "No data provided"), 0)) ∧
    (∀ llm : StageResponses,
      generate_story (some []) llm =
        ((400, ResponseBody.errorBody "No data provided"), 0)) ∧
    (∀ (d : List (String × String)) (llm : StageResponses), d ≠ [] →
      truthyS (dictGet d "academic_grade") = false ∨
          truthyS (dictGet d "subject") = false →
        generate_story (some d) llm =
          ((400, ResponseBody.errorBody "Missing required fields"), 0)) := by
  refine ⟨fun llm => rfl, fun llm => rfl, fun d llm hne h => ?_⟩
  have hv : (truthyS (dictGet d "academic_grade") && truthyS (dictGet d "subject")) = false := by
    rcases h with h | h <;> simp [h]
  simp [generate_story, hne, hv]

/-- Witness for the amended C5 at a concrete non-empty body lacking
`academic_grade`. -/
theorem c5_validation_before_llm_witness :
    [("subject", "math")] ≠ ([] : List (String × String)) ∧
    truthyS (dictGet [("subject", "math")] "academic_grade") = false ∧
    generate_story (some [("subject", "math")])
        (StageResponses.mk (.ok "") (.ok "") (.ok "") (.ok "") (.ok "")) =
      ((400, ResponseBody.errorBody "Missing required fields"), 0) :=
  ⟨by decide, rfl, c5_validation_before_llm.2.2 _ _ (by decide) (Or.inl rfl)⟩

/-- C8: for a valid request, if any of the five generation stages raises,
the handler answers 500 with `{"error": str(e)}` — the `errorBody`
constructor, which carries no artifact — and the artifacts computed by the
earlier stages are discarded. -/
theorem c8_failure_discards_artifacts (d : List (String × String)) (llm : StageResponses)
    (e : String) (hg : truthyS (dictGet d "academic_grade") = true)
    (hs : truthyS (dictGet d "subject") = true) :
    (llm.story = .error e → generate_story (some d) llm = ((500, .errorBody e), 1)) ∧
    (∀ s₁, llm.story = .ok s₁ → llm.quiz = .error e →
      generate_story (some d) llm = ((500, .errorBody e), 2)) ∧
    (∀ s₁ s₂, llm.story = .ok s₁ → llm.quiz = .ok s₂ → llm.objectives = .error e →
      generate_story (some d) llm = ((500, .errorBody e), 3)) ∧
    (∀ s₁ s₂ s₃, llm.story = .ok s₁ → llm.quiz = .ok s₂ → llm.objectives = .ok s₃ →
      llm.vocab = .error e → generate_story (some d) llm = ((500, .errorBody e), 4)) ∧
    (∀ s₁ s₂ s₃ s₄, llm.story = .ok s₁ → llm.quiz = .ok s₂ → llm.objectives = .ok s₃ →
      llm.vocab = .ok s₄ → llm.summary = .error e →
      generate_story (some d) llm = ((500, .errorBody e), 5)) := by
  have hne : ¬d = [] := by
    intro hd
    rw [hd] at hg
    exact absurd hg (by decide)
  have hv : (truthyS (dictGet d "academic_grade") && truthyS (dictGet d "subject")) = true := by
    rw [hg, hs]; rfl
  refine ⟨fun h1 => ?_, fun s₁ h1 h2 => ?_, fun s₁ s₂ h1 h2 h3 => ?_,
    fun s₁ s₂ s₃ h1 h2 h3 h4 => ?_, fun s₁ s₂ s₃ s₄ h1 h2 h3 h4 h5 => ?_⟩ <;>
    simp_all [generate_story, hne, hv]

/-- Witness for C8 at a concrete request with a failing story stage. -/
theorem c8_failure_discards_artifacts_witness :
    generate_story
        (some [("academic_grade", "5"), ("subject", "math")])
        (StageResponses.mk (.error "boom") (.ok "") (.ok "") (.ok "") (.ok "")) =
      ((500, ResponseBody.errorBody "boom"), 1) :=
  (c8_failure_discards_artifacts _ _ "boom" (by decide) (by decide)).1 rfl

/-- The quiz loop's output is its emitted records followed by the flush of
its final state. -/
theorem quizLoop_eq_append (ls : List (List Char)) : ∀ cur,
    ∃ pre, quizLoop cur ls = pre ++ (quizFinal cur ls).toList := by
  induction ls with
  | nil =>
    intro cur
    cases cur <;> exact ⟨[], rfl⟩
  | cons l ls ih =>
    intro cur
    simp only [quizLoop, quizFinal]
    split_ifs with h0 hq hopt hcor hexp
    · exact ih cur
    · cases cur with
      | none => exact ih _
      | some q =>
        obtain ⟨pre, hp⟩ := ih (some ⟨stripStr ((stripChars l).drop 2), [], none, none⟩)
        exact ⟨q :: pre, by rw [hp]; rfl⟩
    · cases cur with
      | none => exact ih _
      | some q => exact ih _
    · cases cur with
      | none => exact ih _
      | some q => exact ih _
    · cases cur with
      | none => exact ih _
      | some q => exact ih _
    · exact ih cur

/-- The vocabulary loop's output is its emitted records followed by the
flush of its final state. -/
theorem vocabLoop_eq_append (ls : List (List Char)) : ∀ cur,
    ∃ pre, vocabLoop cur ls = pre ++ (vocabFinal cur ls).toList := by
  induction ls with
  | nil =>
    intro cur
    cases cur <;> exact ⟨[], rfl⟩
  | cons l ls ih =>
    intro cur
    simp only [vocabLoop, vocabFinal]
    split_ifs with h0 hw hd he hp
    · cases cur with
      | none => exact ih _
      | some w =>
        obtain ⟨pre, hpre⟩ := ih none
        exact ⟨w :: pre, by rw [hpre]; rfl⟩
    · cases cur with
      | none => exact ih _
      | some w =>
        obtain ⟨pre, hpre⟩ :=
          ih (some ⟨some (stripStr ((stripChars l).drop 5)), none, none, none⟩)
        exact ⟨w :: pre, by rw [hpre]; rfl⟩
    · exact ih _
    · exact ih _
    · exact ih _
    · exact ih cur

/-- C9: in both scanners, a record still open when the input is exhausted
(the loop's final state is `some`) is appended as the last element of the
returned list, not dropped. -/
theorem c9_trailing_record_flushed :
    (∀ (s : String) (q : QuizQuestion), quizFinal none (linesOf s) = some q →
      (parse_quiz_response s).getLast? = some q) ∧
    (∀ (s : String) (w : VocabEntry), vocabFinal none (linesOf s) = some w →
      (parse_vocabulary_response s).getLast? = some w) := by
  constructor
  · intro s q h
    obtain ⟨pre, hp⟩ := quizLoop_eq_append (linesOf s) none
    unfold parse_quiz_response parse_quiz_lines
    rw [hp, h, List.getLast?_append_of_ne_nil pre (by simp)]
    rfl
  · intro s w h
    obtain ⟨pre, hp⟩ := vocabLoop_eq_append (linesOf s) none
    unfold parse_vocabulary_response parse_vocab_lines
    rw [hp, h, List.getLast?_append_of_ne_nil pre (by simp)]
    rfl

/-- Witness for C9 on inputs whose only record has no terminator. -/
theorem c9_trailing_record_flushed_witness :
    (parse_quiz_response "Q: hi").getLast? = some ⟨"hi", [], none, none⟩ ∧
    (parse_vocabulary_response "Word: cat").getLast? = some ⟨some "cat", none, none, none⟩ :=
  ⟨c9_trailing_record_flushed.1 _ _ (by decide),
   c9_trailing_record_flushed.2 _ _ (by decide)⟩

/-- A line whose stripped form does not start with `Q:` leaves the quiz
loop's `none` state (no open record) unchanged. -/
theorem quizLoop_none_cons (l : List Char) (ls : List (List Char))
    (h : "Q:".data.isPrefixOf (stripChars l) = false) :
    quizLoop none (l :: ls) = quizLoop none ls := by
  simp only [quizLoop]
  split_ifs with h0 hq hopt hcor hexp <;>
    first
    | rfl
    | (rw [h] at hq; exact absurd hq (by simp))

/-- The quiz loop emits exactly one record per `Q:` line, plus the open
record it was started with. -/
theorem quizLoop_length (ls : List (List Char)) : ∀ cur : Option QuizQuestion,
    (quizLoop cur ls).length = countQ ls + (cur.map fun _ => 1).getD 0 := by
  induction ls with
  | nil =>
    intro cur
    cases cur <;> simp [quizLoop, countQ]
  | cons l ls ih =>
    intro cur
    simp only [quizLoop]
    split_ifs with h0 hq hopt hcor hexp
    · have hp : "Q:".data.isPrefixOf (stripChars l) = false := by
        rw [h0]; rfl
      rw [ih cur]
      simp [countQ, List.filter_cons, hp]
    · cases cur with
      | none =>
        rw [ih _]
        simp [countQ, List.filter_cons, hq]
      | some q =>
        rw [List.length_cons, ih _]
        simp [countQ, List.filter_cons, hq]
    · cases cur with
      | none =>
        rw [ih _]
        simp [countQ, List.filter_cons, hq]
      | some q =>
        rw [ih _]
        simp [countQ, List.filter_cons, hq]
    · cases cur with
      | none =>
        rw [ih _]
        simp [countQ, List.filter_cons, hq]
      | some q =>
        rw [ih _]
        simp [countQ, List.filter_cons, hq]
    · cases cur with
      | none =>
        rw [ih _]
        simp [countQ, List.filter_cons, hq]
      | some q =>
        rw [ih _]
        simp [countQ, List.filter_cons, hq]
    · rw [ih cur]
      simp [countQ, List.filter_cons, hq]

/-- C10: marker lines occurring before the first `Q:` line are silently
discarded — a prefix of lines none of which starts with `Q:` does not change
the parse of the rest — and every record in the output originates from a
`Q:` line: the output has exactly one record per `Q:` line of the input. -/
theorem c10_pre_question_lines_discarded :
    (∀ pre post : List (List Char),
      (∀ l ∈ pre, "Q:".data.isPrefixOf (stripChars l) = false) →
        parse_quiz_lines (pre ++ post) = parse_quiz_lines post) ∧
    (∀ s : String, (parse_quiz_response s).length = countQ (linesOf s)) := by
  constructor
  · intro pre post h
    induction pre with
    | nil => rfl
    | cons l pre ih =>
      unfold parse_quiz_lines
      rw [List.cons_append, quizLoop_none_cons l _ (h l (List.mem_cons_self l pre))]
      exact ih fun x hx => h x (List.mem_cons_of_mem l hx)
  · intro s
    unfold parse_quiz_response parse_quiz_lines
    rw [quizLoop_length (linesOf s) none]
    rfl

/-- Witness for C10: stray option and answer lines ahead of the first `Q:`
line leave the parse unchanged. -/
theorem c10_pre_question_lines_discarded_witness :
    parse_quiz_lines (["A: stray".data, "Correct: stray".data] ++ ["Q: q".data]) =
      parse_quiz_lines ["Q: q".data] :=
  c10_pre_question_lines_discarded.1 _ _ (by decide)

/-- Options-per-block invariant of the quiz loop: if `blocksLE4` accepts the
remaining lines from a state matching the open record, every record ever
emitted has at most four options. -/
theorem quiz_blocks_invariant (ls : List (List Char)) :
    ∀ (st : Option Nat) (cur : Option QuizQuestion), stMatch st cur →
      blocksLE4 st ls = true → ∀ q ∈ quizLoop cur ls, q.options.length ≤ 4 := by
  induction ls with
  | nil =>
    intro st cur hm hc q hq
    cases cur with
    | none => simp [quizLoop] at hq
    | some q0 =>
      cases st with
      | none => exact absurd hm (by simp [stMatch])
      | some n =>
        simp [quizLoop] at hq
        subst hq
        obtain ⟨h1, h2⟩ := hm
        omega
  | cons l ls ih =>
    intro st cur hm hc q hq
    simp only [quizLoop] at hq
    simp only [blocksLE4] at hc
    split_ifs at hq hc with h0 hq' hopt hcor hexp
    · exact ih st cur hm hc q hq
    · cases cur with
      | none =>
        cases st with
        | none => exact ih (some 0) _ (by simp [stMatch]) hc q hq
        | some n => exact absurd hm (by simp [stMatch])
      | some q0 =>
        cases st with
        | none => exact absurd hm (by simp [stMatch])
        | some n =>
          rcases List.mem_cons.mp hq with rfl | hq2
          · obtain ⟨h1, h2⟩ := hm
            omega
          · exact ih (some 0) _ (by simp [stMatch]) hc q hq2
    · cases cur with
      | none =>
        cases st with
        | none => exact ih none none trivial hc q hq
        | some n => exact absurd hm (by simp [stMatch])
      | some q0 =>
        cases st with
        | none => exact absurd hm (by simp [stMatch])
        | some n =>
          rw [Bool.and_eq_true, decide_eq_true_eq] at hc
          obtain ⟨hle, hc'⟩ := hc
          refine ih (some (n + 1)) _ ?_ hc' q hq
          obtain ⟨h1, h2⟩ := hm
          exact ⟨by simp [h1], hle⟩
    · cases cur with
      | none =>
        cases st with
        | none => exact ih none none trivial hc q hq
        | some n => exact absurd hm (by simp [stMatch])
      | some q0 =>
        cases st with
        | none => exact absurd hm (by simp [stMatch])
        | some n =>
          exact ih (some n)
            (some { q0 with correct_answer := some (stripStr ((stripChars l).drop 8)) })
            hm hc q hq
    · cases cur with
      | none =>
        cases st with
        | none => exact ih none none trivial hc q hq
        | some n => exact absurd hm (by simp [stMatch])
      | some q0 =>
        cases st with
        | none => exact absurd hm (by simp [stMatch])
        | some n =>
          exact ih (some n)
            (some { q0 with explanation := some (stripStr ((stripChars l).drop 11)) })
            hm hc q hq
    · exact ih st cur hm hc q hq

/-- C6 counterexample: the parser imposes no cap of 4 on the options list —
a fifth option-marker line in the same question block is appended too, so a
record with five options is produced. -/
theorem c6_options_le4_counterexample :
    ((parse_quiz_response "Q: q\nA: 1\nB: 2\nC: 3\nD: 4\nA: 5").map
        fun q => q.options.length) = [5] := by
  decide

/-- C6 (amended): every `A:`/`B:`/`C:`/`D:` line while a record is open
appends one option; the cap of 4 holds exactly for inputs whose question
blocks contain at most four option-marker lines each (`blocksLE4`). -/
theorem c6_options_le4_amended (s : String)
    (h : blocksLE4 none (linesOf s) = true) :
    ∀ q ∈ parse_quiz_response s, q.options.length ≤ 4 :=
  quiz_blocks_invariant (linesOf s) none none trivial h

/-- Witness for the amended C6 at a concrete well-formed input. -/
theorem c6_options_le4_amended_witness :
    blocksLE4 none (linesOf "Q: q\nA: 1") = true ∧
    QuizQuestion.mk "q" ["1"] none none ∈ parse_quiz_response "Q: q\nA: 1" ∧
    (QuizQuestion.mk "q" ["1"] none none).options.length ≤ 4 :=
  ⟨by decide, by decide,
   c6_options_le4_amended "Q: q\nA: 1" (by decide)
     (QuizQuestion.mk "q" ["1"] none none) (by decide)⟩

/-- Word-presence invariant of the vocabulary loop: if `wordLedOk` accepts
the remaining lines from a flag matching the open record, every record ever
emitted has a word field. -/
theorem vocab_word_invariant (ls : List (List Char)) :
    ∀ (b : Bool) (cur : Option VocabEntry), vocabMatch b cur →
      wordLedOk b ls = true → ∀ w ∈ vocabLoop cur ls, w.word.isSome = true := by
  induction ls with
  | nil =>
    intro b cur hm hc w hw
    cases cur with
    | none => simp [vocabLoop] at hw
    | some w0 =>
      cases b with
      | false => exact absurd hm (by simp [vocabMatch])
      | true =>
        simp [vocabLoop] at hw
        subst hw
        exact hm
  | cons l ls ih =>
    intro b cur hm hc w hw
    simp only [vocabLoop] at hw
    simp only [wordLedOk] at hc
    split_ifs at hw hc with h0 hwd hdef hex hpos
    · cases cur with
      | none => exact ih false none trivial hc w hw
      | some w0 =>
        cases b with
        | false => exact absurd hm (by simp [vocabMatch])
        | true =>
          rcases List.mem_cons.mp hw with rfl | hw2
          · exact hm
          · exact ih false none trivial hc w hw2
    · cases cur with
      | none =>
        exact ih true (some ⟨some (stripStr ((stripChars l).drop 5)), none, none, none⟩)
          (by simp [vocabMatch]) hc w hw
      | some w0 =>
        cases b with
        | false => exact absurd hm (by simp [vocabMatch])
        | true =>
          rcases List.mem_cons.mp hw with rfl | hw2
          · exact hm
          · exact ih true (some ⟨some (stripStr ((stripChars l).drop 5)), none, none, none⟩)
              (by simp [vocabMatch]) hc w hw2
    · rw [Bool.and_eq_true] at hc
      obtain ⟨hb, hc'⟩ := hc
      subst hb
      cases cur with
      | none => exact absurd hm (by simp [vocabMatch])
      | some w0 =>
        refine ih true (some { w0 with definition := some (stripStr ((stripChars l).drop 11)) })
          ?_ hc' w ?_
        · exact hm
        · simpa using hw
    · rw [Bool.and_eq_true] at hc
      obtain ⟨hb, hc'⟩ := hc
      subst hb
      cases cur with
      | none => exact absurd hm (by simp [vocabMatch])
      | some w0 =>
        refine ih true (some { w0 with «example» := some (stripStr ((stripChars l).drop 8)) })
          ?_ hc' w ?_
        · exact hm
        · simpa using hw
    · rw [Bool.and_eq_true] at hc
      obtain ⟨hb, hc'⟩ := hc
      subst hb
      cases cur with
      | none => exact absurd hm (by simp [vocabMatch])
      | some w0 =>
        refine ih true
          (some { w0 with part_of_speech := some (stripStr ((stripChars l).drop 14)) })
          ?_ hc' w ?_
        · exact hm
        · simpa using hw
    · exact ih b cur hm hc w hw

/-- C7 counterexample: a `Definition:` line arriving while no record is open
creates a record with no word field (Python's unguarded
`current_word['definition'] = ...` on the empty dict), which is flushed at
end of input. -/
theorem c7_word_field_counterexample :
    (parse_vocabulary_response "Definition: x").all (fun w => w.word.isSome) = false ∧
    parse_vocabulary_response "Definition: x" =
      [{ word := none, definition := some "x", «example» := none, part_of_speech := none }] := by
  constructor
  · decide
  · decide

/-- C7 (amended): every record produced by the vocabulary parser has a word
field, provided each `Definition:`/`Example:`/`Part of Speech:` line is
preceded by a `Word:` line more recently than any blank line (`wordLedOk`). -/
theorem c7_word_field_amended (s : String)
    (h : wordLedOk false (linesOf s) = true) :
    ∀ w ∈ parse_vocabulary_response s, w.word.isSome = true :=
  vocab_word_invariant (linesOf s) false none trivial h

/-- Witness for the amended C7 at a concrete well-formed input. -/
theorem c7_word_field_amended_witness :
    wordLedOk false (linesOf "Word: cat\nDefinition: animal") = true ∧
    VocabEntry.mk (some "cat") (some "animal") none none ∈
      parse_vocabulary_response "Word: cat\nDefinition: animal" ∧
    (VocabEntry.mk (some "cat") (some "animal") none none).word.isSome = true :=
  ⟨by decide, by decide,
   c7_word_field_amended "Word: cat\nDefinition: animal" (by decide)
     (VocabEntry.mk (some "cat") (some "animal") none none) (by decide)⟩

end EasyStory
